import Mathlib

/-!
Verification of the declarative control/badge composition engine of the
monarch module: the attribute resolver, the descriptor applier
(`applyCardControl` / `applyCardControls` / `applyCardBadges`), the control
flattener (`controlReducer` + `Object.fromEntries`), and the built-in
descriptor catalogs (`Controls` / `Badges` and the mixin's inlined getters).

Shallow embedding conventions:
- A JS field that may be a literal, a one-argument computed function, or
  absent (`undefined`) is embedded as `Attr α`.
- A JS field that may be absent is embedded as `Option`.
- The JS truthiness test `control.class` is true exactly when the field is
  present and not the empty string; `control.onclick` is true exactly when
  the field is present (functions are always truthy); `control.controls` is
  true exactly when the field is present (an empty array is truthy in JS).
- The `class` field is spelled `cls` (`class` is a Lean keyword).
-/

/-- The nested data bag of a card subject (`card.data` in the source). -/
structure CardData where
  suit : String
  value : String
  type : String
  face : Option Int
  deriving Repr

/-- A card subject: the record descriptors are resolved against. -/
structure Card where
  name : String
  data : CardData
  hasNextFace : Bool
  hasPreviousFace : Bool
  deriving Repr

/-- A descriptor field: a literal value, a per-subject computation, or absent. -/
inductive Attr (α : Type) : Type where
  | absent : Attr α
  | value (v : α) : Attr α
  | func (f : Card → α) : Attr α

/-- Modelled from the spec: `utils.functionOrString` lives in `utils.js`,
which is not part of the provided sources; the spec's Attribute Resolver
contract (§4.1) is: absent/undefined yields a constant function returning
the default, a plain value yields a constant function returning it, and a
callable is returned directly. -/
def functionOrString {α : Type} (a : Attr α) (d : α) : Card → α :=
  match a with
  | .absent => fun _ => d
  | .value v => fun _ => v
  | .func f => f

/-- A badge descriptor (`CardBadge` in the source). -/
structure CardBadge where
  tooltip : Attr String
  text : Attr String
  cls : Option String
  hide : Attr Bool

/-- A fully resolved badge record, as built by `applyCardBadges`. -/
structure ResolvedBadge where
  tooltip : String
  text : String
  hide : Bool
  cls : String
  deriving Repr, DecidableEq

/-- `applyCardBadges(card, badges)` from the mixin: maps each badge
descriptor to its resolved record. -/
def applyCardBadges (card : Card) (badges : List CardBadge) : List ResolvedBadge :=
  badges.map fun badge =>
    { tooltip := functionOrString badge.tooltip "" card
      text := functionOrString badge.text "" card
      hide := functionOrString badge.hide false card
      cls := badge.cls.getD "" }

/-- A control descriptor (`CardControl` in the source), parametric in the
handler type `H` carried by `onclick`. -/
inductive CardControl (H : Type) : Type where
  | mk (tooltip : Attr String) (aria : Attr String) (icon : Attr String)
       (cls : Option String) (disabled : Attr Bool)
       (onclick : Option H) (controls : Option (List (CardControl H)))

def CardControl.tooltip {H : Type} : CardControl H → Attr String
  | .mk t _ _ _ _ _ _ => t

def CardControl.aria {H : Type} : CardControl H → Attr String
  | .mk _ a _ _ _ _ _ => a

def CardControl.icon {H : Type} : CardControl H → Attr String
  | .mk _ _ i _ _ _ _ => i

def CardControl.cls {H : Type} : CardControl H → Option String
  | .mk _ _ _ c _ _ _ => c

def CardControl.disabled {H : Type} : CardControl H → Attr Bool
  | .mk _ _ _ _ d _ _ => d

def CardControl.onclick {H : Type} : CardControl H → Option H
  | .mk _ _ _ _ _ oc _ => oc

def CardControl.controls {H : Type} : CardControl H → Option (List (CardControl H))
  | .mk _ _ _ _ _ _ cs => cs

/-- A fully resolved control record, as built by `applyCardControl`: the
exact field set `{tooltip, aria, icon, class, disabled, controls}` — there
is no `onclick` field. -/
inductive ResolvedControl : Type where
  | mk (tooltip : String) (aria : String) (icon : String) (cls : String)
       (disabled : Bool) (controls : List ResolvedControl)

def ResolvedControl.tooltip : ResolvedControl → String
  | .mk t _ _ _ _ _ => t

def ResolvedControl.aria : ResolvedControl → String
  | .mk _ a _ _ _ _ => a

def ResolvedControl.icon : ResolvedControl → String
  | .mk _ _ i _ _ _ => i

def ResolvedControl.cls : ResolvedControl → String
  | .mk _ _ _ c _ _ => c

def ResolvedControl.disabled : ResolvedControl → Bool
  | .mk _ _ _ _ d _ => d

def ResolvedControl.controls : ResolvedControl → List ResolvedControl
  | .mk _ _ _ _ _ cs => cs

mutual

/-- `applyCardControl(card, control)` from the mixin: resolves each field
against the card; `class` defaults to `""` via `??`; children are resolved
recursively when the `controls` field is present (a present empty array is
truthy in JS and maps to the empty list, the same result as absence). -/
def applyCardControl {H : Type} (card : Card) : CardControl H → ResolvedControl
  | .mk t a i c d _oc ctrls =>
    .mk (functionOrString t "" card) (functionOrString a "" card)
        (functionOrString i "" card) (c.getD "")
        (functionOrString d false card)
        (match ctrls with
         | none => []
         | some cs => applyCardControls card cs)

/-- `applyCardControls(card, controls)` from the mixin: maps
`applyCardControl` over the descriptor list. -/
def applyCardControls {H : Type} (card : Card) : List (CardControl H) → List ResolvedControl
  | [] => []
  | ctl :: rest => applyCardControl card ctl :: applyCardControls card rest

end

mutual

/-- `controlReducer(controls, control)` from the mixin: if the control has
a truthy `onclick` and a truthy (present, non-empty) `class`, push the
`(class, onclick)` pair onto the accumulator; if it has a `controls`
sub-array, fold it into the same accumulator. -/
def controlReducer {H : Type} (acc : List (String × H)) : CardControl H → List (String × H)
  | .mk _ _ _ c _ oc ctrls =>
    let acc1 : List (String × H) :=
      match oc, c with
      | some h, some s => if s = "" then acc else acc ++ [(s, h)]
      | _, _ => acc
    match ctrls with
    | none => acc1
    | some cs => controlReducerList acc1 cs

/-- `array.reduce(controlReducer, acc)`: the left fold of `controlReducer`
over a control array, as performed on each `controls` sub-array and, in
`getData`, on the top-level control list with an empty initial accumulator. -/
def controlReducerList {H : Type} (acc : List (String × H)) : List (CardControl H) → List (String × H)
  | [] => acc
  | ctl :: rest => controlReducerList (controlReducer acc ctl) rest

end

/-- One step of `Object.fromEntries`: setting key `k` to `v` on a JS object
overwrites the value in place when the key exists (keeping its original
position) and appends a new entry otherwise. -/
def objSet {H : Type} (m : List (String × H)) (k : String) (v : H) : List (String × H) :=
  if m.any (fun p => p.1 = k) then
    m.map (fun p => if p.1 = k then (k, v) else p)
  else
    m ++ [(k, v)]

/-- `Object.fromEntries(pairs)`: folds property assignment over the entry
list, so a later entry with a duplicate key overwrites the earlier value. -/
def fromEntries {H : Type} (l : List (String × H)) : List (String × H) :=
  l.foldl (fun m kv => objSet m kv.1 kv.2) []

/-- Property lookup on the resulting object. -/
def objGet {H : Type} (m : List (String × H)) (k : String) : Option H :=
  (m.find? (fun p => p.1 = k)).map (fun p => p.2)

/-- `this._controlFns` as built in `getData`:
`Object.fromEntries(controls.reduce(this.controlReducer.bind(this), []))`. -/
def getDataControlFns {H : Type} (controls : List (CardControl H)) : List (String × H) :=
  fromEntries (controlReducerList [] controls)

/-- The click-event argument of a card control handler; the built-in
handlers ignore it. -/
def Event : Type := Unit

/-- The handler type of the built-in face-navigation controls:
`(event, card) => card.update({face: ...})`, modelled by the `face` payload
of the update (`none` embeds JS `null`; JS coerces `null - 1` to `-1`). -/
def Handler : Type := Event → Card → Option Int

namespace MonarchApplicationMixin

/-- The mixin's inlined `controls` getter: a `card-faces` group holding the
`next-face` and `prev-face` leaves. -/
def controls : List (CardControl Handler) :=
  [ .mk .absent .absent .absent (some "card-faces") .absent none
      (some
        [ .mk (.value "CARD.FaceNext") .absent (.value "fas fa-caret-up")
            (some "next-face")
            (.func fun card => !card.hasNextFace)
            (some fun _event card =>
              match card.data.face with
              | none => some 0
              | some f => some (f + 1))
            none,
          .mk (.value "CARD.FacePrevious") .absent (.value "fas fa-caret-down")
            (some "prev-face")
            (.func fun card => !card.hasPreviousFace)
            (some fun _event card =>
              match card.data.face with
              | some 0 => none
              | none => some (-1)
              | some f => some (f - 1))
            none ]) ]

/-- The mixin's inlined `badges` getter: suit, value, type. -/
def badges : List CardBadge :=
  [ { tooltip := .value "CARD.Suit", text := .func fun card => card.data.suit
      cls := some "card-suit", hide := .absent },
    { tooltip := .value "CARD.Value", text := .func fun card => card.data.value
      cls := some "card-value", hide := .absent },
    { tooltip := .value "CARD.Type", text := .func fun card => card.data.type
      cls := some "card-type", hide := .absent } ]

end MonarchApplicationMixin

namespace Controls

/-- `Controls.faceNext` from the descriptor library. -/
def faceNext : CardControl Handler :=
  .mk (.value "CARD.FaceNext") .absent (.value "fas fa-caret-up")
    (some "next-face")
    (.func fun card => !card.hasNextFace)
    (some fun _event card =>
      match card.data.face with
      | none => some 0
      | some f => some (f + 1))
    none

/-- `Controls.facePrevious` from the descriptor library. -/
def facePrevious : CardControl Handler :=
  .mk (.value "CARD.FacePrevious") .absent (.value "fas fa-caret-down")
    (some "prev-face")
    (.func fun card => !card.hasPreviousFace)
    (some fun _event card =>
      match card.data.face with
      | some 0 => none
      | none => some (-1)
      | some f => some (f - 1))
    none

/-- `Controls.faces` from the descriptor library: the face-navigation group. -/
def faces : CardControl Handler :=
  .mk .absent .absent .absent (some "card-faces") .absent none
    (some [faceNext, facePrevious])

/-- `Controls.default` from the descriptor library. -/
def default : List (CardControl Handler) := [faces]

end Controls

namespace Badges

/-- `Badges.suit` from the descriptor library. -/
def suit : CardBadge :=
  { tooltip := .value "CARD.Suit", text := .func fun card => card.data.suit
    cls := some "card-suit", hide := .absent }

/-- `Badges.value` from the descriptor library. -/
def value : CardBadge :=
  { tooltip := .value "CARD.Value", text := .func fun card => card.data.value
    cls := some "card-value", hide := .absent }

/-- `Badges.type` from the descriptor library. -/
def type : CardBadge :=
  { tooltip := .value "CARD.Type", text := .func fun card => card.data.type
    cls := some "card-type", hide := .absent }

/-- `Badges.default` from the descriptor library: suit, value, type. -/
def default : List CardBadge := [suit, value, type]

end Badges

/-- The spec's description of flattening, stated as written (§4.3): for
each control in document order, if it has both `onclick` and a non-empty
`class`, its pair is contributed; a `controls` sub-sequence is folded
recursively, children in their own relative order. Used to compare against
the source's accumulator-threading `controlReducer` fold. -/
def flattenSpecification {H : Type} : List (CardControl H) → List (String × H)
  | [] => []
  | .mk _ _ _ c _ oc ctrls :: rest =>
    (match oc, c with
     | some h, some s => if s = "" then [] else [(s, h)]
     | _, _ => []) ++
    (match ctrls with
     | none => []
     | some cs => flattenSpecification cs) ++
    flattenSpecification rest

/-- One resolution step as a state transformer over the subject: reading a
descriptor field and invoking a (pure) computed field returns the value and
leaves the subject unchanged. -/
def readResolve {α : Type} (a : Attr α) (d : α) (card : Card) : α × Card :=
  (functionOrString a d card, card)

mutual

/-- `applyCardControl` with the subject threaded through every field
resolution as explicit state, in the source's evaluation order. -/
def applyCardControlSt {H : Type} : CardControl H → Card → ResolvedControl × Card
  | .mk t a i c d _oc ctrls, c0 =>
    let (tv, c1) := readResolve t "" c0
    let (av, c2) := readResolve a "" c1
    let (iv, c3) := readResolve i "" c2
    let (dv, c4) := readResolve d false c3
    let (cv, c5) :=
      match ctrls with
      | none => (([] : List ResolvedControl), c4)
      | some cs => applyCardControlsSt cs c4
    (.mk tv av iv (c.getD "") dv cv, c5)

/-- `applyCardControls` with the subject threaded as explicit state. -/
def applyCardControlsSt {H : Type} : List (CardControl H) → Card → List ResolvedControl × Card
  | [], c0 => ([], c0)
  | ctl :: rest, c0 =>
    let (r, c1) := applyCardControlSt ctl c0
    let (rs, c2) := applyCardControlsSt rest c1
    (r :: rs, c2)

end

/-! ### Unfolding lemmas

The recursive functions over the nested `CardControl` tree are compiled by
well-founded recursion, so their defining equations are restated here in
constructor form for use by `simp`/`rw`. -/

theorem flattenSpecification_nil {H : Type} :
    flattenSpecification ([] : List (CardControl H)) = [] := by
  rw [flattenSpecification.eq_def]

theorem flattenSpecification_cons {H : Type} (t a i : Attr String) (c : Option String)
    (d : Attr Bool) (oc : Option H) (ctrls : Option (List (CardControl H)))
    (rest : List (CardControl H)) :
    flattenSpecification (CardControl.mk t a i c d oc ctrls :: rest) =
      ((match oc, c with
        | some h, some s => if s = "" then [] else [(s, h)]
        | _, _ => []) ++
       (match ctrls with
        | none => []
        | some cs => flattenSpecification cs)) ++
      flattenSpecification rest := by
  rw [flattenSpecification.eq_def]

theorem controlReducerList_nil {H : Type} (acc : List (String × H)) :
    controlReducerList acc ([] : List (CardControl H)) = acc := by
  rw [controlReducerList.eq_def]

theorem controlReducerList_cons {H : Type} (acc : List (String × H))
    (ctl : CardControl H) (rest : List (CardControl H)) :
    controlReducerList acc (ctl :: rest) = controlReducerList (controlReducer acc ctl) rest := by
  rw [controlReducerList.eq_def]

theorem controlReducer_mk {H : Type} (acc : List (String × H)) (t a i : Attr String)
    (c : Option String) (d : Attr Bool) (oc : Option H)
    (ctrls : Option (List (CardControl H))) :
    controlReducer acc (.mk t a i c d oc ctrls) =
      (let acc1 : List (String × H) :=
        match oc, c with
        | some h, some s => if s = "" then acc else acc ++ [(s, h)]
        | _, _ => acc
       match ctrls with
       | none => acc1
       | some cs => controlReducerList acc1 cs) := by
  rw [controlReducer.eq_def]

theorem applyCardControl_mk {H : Type} (card : Card) (t a i : Attr String)
    (c : Option String) (d : Attr Bool) (oc : Option H)
    (ctrls : Option (List (CardControl H))) :
    applyCardControl card (.mk t a i c d oc ctrls) =
      .mk (functionOrString t "" card) (functionOrString a "" card)
        (functionOrString i "" card) (c.getD "")
        (functionOrString d false card)
        (match ctrls with
         | none => []
         | some cs => applyCardControls card cs) := by
  rw [applyCardControl.eq_def]

theorem applyCardControls_nil {H : Type} (card : Card) :
    applyCardControls card ([] : List (CardControl H)) = [] := by
  rw [applyCardControls.eq_def]

theorem applyCardControls_cons {H : Type} (card : Card) (ctl : CardControl H)
    (rest : List (CardControl H)) :
    applyCardControls card (ctl :: rest) =
      applyCardControl card ctl :: applyCardControls card rest := by
  rw [applyCardControls.eq_def]

/-! ### The fold threads the accumulator by appending -/

mutual

theorem controlReducer_append {H : Type} (ctl : CardControl H) (acc : List (String × H)) :
    controlReducer acc ctl = acc ++ flattenSpecification [ctl] := by
  cases ctl with
  | mk t a i c d oc ctrls =>
    rw [controlReducer_mk, flattenSpecification_cons, flattenSpecification_nil]
    cases ctrls with
    | none =>
      cases oc <;> cases c <;> (simp; try (split <;> simp))
    | some cs =>
      cases oc <;> cases c <;>
        (simp [controlReducerList_append cs]; try (split <;> simp))

theorem controlReducerList_append {H : Type} (cs : List (CardControl H)) (acc : List (String × H)) :
    controlReducerList acc cs = acc ++ flattenSpecification cs := by
  cases cs with
  | nil => rw [controlReducerList_nil, flattenSpecification_nil, List.append_nil]
  | cons ctl rest =>
    rw [controlReducerList_cons, controlReducerList_append rest,
      controlReducer_append ctl]
    cases ctl with
    | mk t a i c d oc ctrls =>
      rw [flattenSpecification_cons, flattenSpecification_cons, flattenSpecification_nil]
      simp

end

/-! ### Lemmas about the `Object.fromEntries` model -/

theorem find?_map_set {H : Type} (m : List (String × H)) (k : String) (v : H)
    (h : m.any (fun p => p.1 = k) = true) :
    (m.map (fun p => if p.1 = k then (k, v) else p)).find? (fun p => p.1 = k) = some (k, v) := by
  induction m with
  | nil => simp at h
  | cons p m ih =>
    by_cases hp : p.1 = k
    · simp [List.find?, hp]
    · simp only [List.any_cons, hp, decide_False, Bool.false_or] at h
      simp [List.find?, hp, ih h]

theorem find?_append_no_key {H : Type} (m : List (String × H)) (k : String) (v : H)
    (h : m.any (fun p => p.1 = k) = false) :
    (m ++ [(k, v)]).find? (fun p => p.1 = k) = some (k, v) := by
  induction m with
  | nil => simp [List.find?]
  | cons p m ih =>
    simp only [List.any_cons, Bool.or_eq_false_iff, decide_eq_false_iff_not] at h
    simp [List.find?, h.1, ih (by simpa using h.2)]

theorem objGet_objSet_same {H : Type} (m : List (String × H)) (k : String) (v : H) :
    objGet (objSet m k v) k = some v := by
  unfold objGet objSet
  split
  · rw [find?_map_set m k v (by assumption)]
    rfl
  · rename_i hfalse
    rw [find?_append_no_key m k v (Bool.eq_false_iff.mpr hfalse)]
    rfl

theorem find?_map_set_other {H : Type} (m : List (String × H)) (k k' : String) (v : H)
    (hne : k' ≠ k) :
    (m.map (fun p => if p.1 = k' then (k', v) else p)).find? (fun p => p.1 = k) =
      m.find? (fun p => p.1 = k) := by
  induction m with
  | nil => rfl
  | cons p m ih =>
    by_cases hp : p.1 = k'
    · have hpk : ¬ p.1 = k := by rw [hp]; exact hne
      simp [List.find?, hp, hne, hpk, ih]
    · by_cases hpk : p.1 = k
      · simp [List.find?, hp, hpk, Ne.symm hne]
      · simp [List.find?, hp, hpk, ih]

theorem find?_append_single_other {H : Type} (m : List (String × H)) (k k' : String) (v : H)
    (hne : k' ≠ k) :
    (m ++ [(k', v)]).find? (fun p => p.1 = k) = m.find? (fun p => p.1 = k) := by
  induction m with
  | nil => simp [List.find?, hne]
  | cons p m ih =>
    by_cases hp : p.1 = k
    · simp [List.find?, hp]
    · simp [List.find?, hp, ih]

theorem objGet_objSet_other {H : Type} (m : List (String × H)) (k k' : String) (v : H)
    (hne : k' ≠ k) :
    objGet (objSet m k' v) k = objGet m k := by
  unfold objGet objSet
  split
  · rw [find?_map_set_other m k k' v hne]
  · rw [find?_append_single_other m k k' v hne]

theorem objGet_foldl_no_key {H : Type} (l : List (String × H)) (m : List (String × H))
    (k : String) (h : ∀ p ∈ l, p.1 ≠ k) :
    objGet (l.foldl (fun acc kv => objSet acc kv.1 kv.2) m) k = objGet m k := by
  induction l generalizing m with
  | nil => rfl
  | cons kv l ih =>
    rw [List.foldl_cons, ih _ (fun p hp => h p (List.mem_cons_of_mem kv hp)),
      objGet_objSet_other m k kv.1 kv.2 (h kv (List.mem_cons_self kv l))]

theorem fromEntries_append {H : Type} (l1 l2 : List (String × H)) :
    fromEntries (l1 ++ l2) = l2.foldl (fun acc kv => objSet acc kv.1 kv.2) (fromEntries l1) := by
  unfold fromEntries
  rw [List.foldl_append]

/-! ### The state-threaded applier coincides with the pure one -/

mutual

theorem applyCardControlSt_eq {H : Type} (ctl : CardControl H) (c0 : Card) :
    applyCardControlSt ctl c0 = (applyCardControl c0 ctl, c0) := by
  cases ctl with
  | mk t a i c d oc ctrls =>
    rw [applyCardControlSt.eq_def, applyCardControl_mk]
    cases ctrls with
    | none => rfl
    | some cs =>
      simp only [readResolve, applyCardControlsSt_eq cs]

theorem applyCardControlsSt_eq {H : Type} (cs : List (CardControl H)) (c0 : Card) :
    applyCardControlsSt cs c0 = (applyCardControls c0 cs, c0) := by
  cases cs with
  | nil => rw [applyCardControlsSt.eq_def, applyCardControls_nil]
  | cons ctl rest =>
    rw [applyCardControlsSt.eq_def, applyCardControls_cons]
    simp only [applyCardControlSt_eq ctl, applyCardControlsSt_eq rest]

end

/-! ### Claim theorems -/

/-- Claim C1: flattening a control list is a left-fold over the tree: folding
`controlReducer` from any accumulator appends exactly the pairs described by
the spec (each control in document order with both an `onclick` and a
non-empty `class` contributes its `(class, onclick)` pair; `controls`
sub-sequences are folded recursively into the same accumulator, children in
their own relative order, at arbitrary depth); and flattening
`[{class:"a", onclick:h1}, {class:"group", controls:[{class:"b", onclick:h2}]}]`
yields exactly the two-entry mapping `{a: h1, b: h2}`. -/
theorem control_flattening_left_fold :
    (∀ (H : Type) (acc : List (String × H)) (cs : List (CardControl H)),
        controlReducerList acc cs = acc ++ flattenSpecification cs)
    ∧ getDataControlFns
        [CardControl.mk .absent .absent .absent (some "a") .absent (some (1 : Nat)) none,
         CardControl.mk .absent .absent .absent (some "group") .absent none
           (some [CardControl.mk .absent .absent .absent (some "b") .absent (some 2) none])]
      = [("a", 1), ("b", 2)] := by
  constructor
  · exact fun H acc cs => controlReducerList_append cs acc
  · simp only [getDataControlFns, controlReducerList_cons, controlReducerList_nil,
      controlReducer_mk]
    decide

/-- Claim C2: for every subject `S`, resolving a plain value `v` yields `v`,
resolving a callable `f` yields `f S`, and resolving an absent field yields
the supplied default. -/
theorem functionOrString_resolution {α : Type} (S : Card) (v d : α) (f : Card → α) :
    functionOrString (Attr.value v) d S = v
    ∧ functionOrString (Attr.func f) d S = f S
    ∧ functionOrString Attr.absent d S = d :=
  ⟨rfl, rfl, rfl⟩

/-- Claim C3: for every subject and control descriptor, `applyCardControl`
produces a resolved record whose `tooltip`/`aria`/`icon` resolve with
default `""`, `disabled` resolves with default `false`, `class` is the
literal class or `""`, and `controls` is the recursively applied children or
the empty sequence; the `onclick` field has no influence on the resolved
record (the `ResolvedControl` type carries no such field). -/
theorem applyCardControl_resolved_fields {H : Type} (card : Card) (ctl : CardControl H) :
    (applyCardControl card ctl).tooltip = functionOrString ctl.tooltip "" card
    ∧ (applyCardControl card ctl).aria = functionOrString ctl.aria "" card
    ∧ (applyCardControl card ctl).icon = functionOrString ctl.icon "" card
    ∧ (applyCardControl card ctl).cls = ctl.cls.getD ""
    ∧ (applyCardControl card ctl).disabled = functionOrString ctl.disabled false card
    ∧ (applyCardControl card ctl).controls =
        (match ctl.controls with
         | none => ([] : List ResolvedControl)
         | some cs => applyCardControls card cs)
    ∧ ∀ oc' : Option H,
        applyCardControl card
            (.mk ctl.tooltip ctl.aria ctl.icon ctl.cls ctl.disabled oc' ctl.controls) =
          applyCardControl card ctl := by
  cases ctl with
  | mk t a i c d oc ctrls =>
    refine ⟨?_, ?_, ?_, ?_, ?_, ?_, ?_⟩ <;>
      simp [applyCardControl_mk, CardControl.tooltip, CardControl.aria, CardControl.icon,
        CardControl.cls, CardControl.disabled, CardControl.controls,
        ResolvedControl.tooltip, ResolvedControl.aria, ResolvedControl.icon,
        ResolvedControl.cls, ResolvedControl.disabled, ResolvedControl.controls]

/-- Claim C4: `applyCardBadges` maps each badge descriptor to
`{tooltip: resolved, text: resolved, hide: resolved (default false), class:
literal or ""}`; and applying `{tooltip:"T", text: c => c.name, class:"x"}`
to the subject named `"Ace"` yields
`{tooltip:"T", text:"Ace", hide:false, class:"x"}`. -/
theorem applyCardBadges_resolved_fields (card : Card) (badges : List CardBadge) :
    applyCardBadges card badges = badges.map (fun badge =>
      { tooltip := functionOrString badge.tooltip "" card
        text := functionOrString badge.text "" card
        hide := functionOrString badge.hide false card
        cls := badge.cls.getD "" })
    ∧ applyCardBadges ⟨"Ace", ⟨"", "", "", none⟩, false, false⟩
        [{ tooltip := .value "T", text := .func fun c => c.name
           cls := some "x", hide := .absent }]
      = [{ tooltip := "T", text := "Ace", hide := false, cls := "x" }] :=
  ⟨rfl, rfl⟩

/-- Claim C5: when two controls in the flattened pair sequence share a class
the later one wins: looking up a key in the `fromEntries` mapping built from
a sequence whose last occurrence of that key carries `v` yields `v`; and
flattening two leaves sharing class `"dup"` with handlers `1` then `2`
yields the mapping `{dup: 2}`. -/
theorem duplicate_class_last_write_wins :
    (∀ (H : Type) (l1 l2 : List (String × H)) (k : String) (v : H),
        (∀ p ∈ l2, p.1 ≠ k) →
        objGet (fromEntries (l1 ++ (k, v) :: l2)) k = some v)
    ∧ getDataControlFns
        [CardControl.mk .absent .absent .absent (some "dup") .absent (some (1 : Nat)) none,
         CardControl.mk .absent .absent .absent (some "dup") .absent (some 2) none]
      = [("dup", 2)] := by
  constructor
  · intro H l1 l2 k v h
    have hsplit : l1 ++ (k, v) :: l2 = (l1 ++ [(k, v)]) ++ l2 := by simp
    rw [hsplit, fromEntries_append, objGet_foldl_no_key l2 _ k h, fromEntries_append]
    simp only [List.foldl_cons, List.foldl_nil]
    exact objGet_objSet_same _ k v
  · simp only [getDataControlFns, controlReducerList_cons, controlReducerList_nil,
      controlReducer_mk]
    decide

/-- Witness for C5 at a concrete input: `1` is bound at key `"dup"`, then
overwritten by `2`, with an unrelated key afterwards. -/
theorem duplicate_class_last_write_wins_witness :
    objGet (fromEntries ([("dup", (1 : Nat))] ++ ("dup", 2) :: [("x", 3)])) "dup" = some 2 :=
  duplicate_class_last_write_wins.1 Nat [("dup", 1)] [("x", 3)] "dup" 2 (by decide)

/-- Claim C6: a leaf control carrying an `onclick` but whose class is absent
or the empty string contributes nothing to the flattened dispatch mapping
and is silently excluded (the reducer is total and returns the accumulator
unchanged). -/
theorem onclick_without_class_excluded {H : Type} (t a i : Attr String) (d : Attr Bool)
    (h : H) (acc : List (String × H)) :
    controlReducer acc (.mk t a i none d (some h) none) = acc
    ∧ controlReducer acc (.mk t a i (some "") d (some h) none) = acc
    ∧ getDataControlFns [CardControl.mk t a i none d (some h) none] = []
    ∧ getDataControlFns [CardControl.mk t a i (some "") d (some h) none] = [] := by
  refine ⟨?_, ?_, ?_, ?_⟩ <;>
    simp [controlReducer_mk, getDataControlFns, controlReducerList_cons,
      controlReducerList_nil, fromEntries]

/-- Counterexample to C7 as stated: a control that has a `controls`
sub-sequence (here the empty group, which is truthy in JS) but also carries
an `onclick` and a non-empty `class` does contribute its own entry to the
dispatch mapping, because `controlReducer` tests `onclick && class`
independently of the presence of `controls`. -/
theorem group_with_own_onclick_enters_dispatch :
    getDataControlFns
        [CardControl.mk .absent .absent .absent (some "g") .absent (some (5 : Nat)) (some [])]
      = [("g", 5)]
    ∧ getDataControlFns
        [CardControl.mk .absent .absent .absent (some "g") .absent (some (5 : Nat)) (some [])]
      ≠ [] := by
  constructor <;>
    (simp only [getDataControlFns, controlReducerList_cons, controlReducerList_nil,
      controlReducer_mk]
     decide)

/-- Claim C7 (amended): a control with a `controls` sub-sequence contributes
no `(class, handler)` entry of its own whenever it lacks an `onclick`, or
its class is absent or empty — the group's fold result is exactly the fold
of its children. (All group controls in the built-in library carry no
`onclick`.) -/
theorem group_controls_entry_condition {H : Type} (t a i : Attr String) (c : Option String)
    (d : Attr Bool) (oc : Option H) (cs : List (CardControl H)) (acc : List (String × H)) :
    controlReducer acc (.mk t a i c d none (some cs)) = controlReducerList acc cs
    ∧ controlReducer acc (.mk t a i none d oc (some cs)) = controlReducerList acc cs
    ∧ controlReducer acc (.mk t a i (some "") d oc (some cs)) = controlReducerList acc cs := by
  refine ⟨?_, ?_, ?_⟩
  · cases c <;> simp [controlReducer_mk]
  · cases oc <;> simp [controlReducer_mk]
  · cases oc <;> simp [controlReducer_mk]

/-- Claim C8: applying the default control list (the face-navigation group
with the `"next-face"` and `"prev-face"` leaves) to any subject with
`hasNextFace = false` and `hasPreviousFace = true` yields a resolved tree in
which the `"next-face"` leaf has `disabled = true` and the `"prev-face"`
leaf has `disabled = false`. -/
theorem default_controls_face_navigation (card : Card)
    (h1 : card.hasNextFace = false) (h2 : card.hasPreviousFace = true) :
    (applyCardControls card MonarchApplicationMixin.controls).map
        (fun r => r.controls.map (fun ch => (ch.cls, ch.disabled)))
      = [[("next-face", true), ("prev-face", false)]] := by
  simp [MonarchApplicationMixin.controls, applyCardControls_cons, applyCardControls_nil,
    applyCardControl_mk, functionOrString, h1, h2,
    ResolvedControl.controls, ResolvedControl.cls, ResolvedControl.disabled]

/-- Witness for C8 at a concrete subject with `hasNextFace = false` and
`hasPreviousFace = true`. -/
theorem default_controls_face_navigation_witness :
    (applyCardControls ⟨"", ⟨"", "", "", none⟩, false, true⟩
          MonarchApplicationMixin.controls).map
        (fun r => r.controls.map (fun ch => (ch.cls, ch.disabled)))
      = [[("next-face", true), ("prev-face", false)]] :=
  default_controls_face_navigation ⟨"", ⟨"", "", "", none⟩, false, true⟩ rfl rfl

/-- Claim C9: resolution neither mutates the subject nor depends on hidden
state: threading the subject through every field resolution leaves it
unchanged and agrees with the pure applier, so calling `applyCardControls`
twice in succession (the second call on the subject state left by the
first) produces equal results. -/
theorem applyCardControls_pure_idempotent {H : Type} (card : Card)
    (l : List (CardControl H)) :
    (applyCardControlsSt l card).1 = applyCardControls card l
    ∧ (applyCardControlsSt l card).2 = card
    ∧ (applyCardControlsSt l ((applyCardControlsSt l card).2)).1 =
        (applyCardControlsSt l card).1 := by
  simp [applyCardControlsSt_eq]

/-- Claim C10: the mixin's inlined default descriptor getters duplicate the
descriptor library: the control sequence equals `Controls.default`, the
badge sequence equals `Badges.default` (suit, value, type in that order),
and consequently both resolve identically against every subject. -/
theorem mixin_getters_match_library :
    MonarchApplicationMixin.controls = Controls.default
    ∧ MonarchApplicationMixin.badges = Badges.default
    ∧ (∀ card : Card,
        applyCardControls card MonarchApplicationMixin.controls =
            applyCardControls card Controls.default
        ∧ applyCardBadges card MonarchApplicationMixin.badges =
            applyCardBadges card Badges.default) :=
  ⟨rfl, rfl, fun _ => ⟨rfl, rfl⟩⟩
